import Mathlib

/-!
Verification of the beads-ui multi-instance CLI core: the daemon
controller's PID-file handling (`src/server/cli/daemon.js`), the instance
registry (`instance-registry.js` and the older `registry.js`), the command
orchestrator (`src/server/cli/commands.js`) and project discovery
(`discover.js`).

The JavaScript sources are embedded shallowly: filesystem state (PID files,
the registry file) becomes explicit data threaded through the functions,
the OS process table and the signal probe become boolean oracles, and every
fallible operation returns an `Option`.
-/

namespace BeadsUI

/-! ## Decimal rendering of numbers

JavaScript template interpolation `${port}` renders a number in decimal.
`decStr` models that rendering (`decCharsAux` peels decimal digits with a
fuel argument so the recursion is structural); `decodeChars` is the
decoding used to prove the rendering injective. -/

/-- Big-endian decimal digit characters of `n`; `fuel` bounds the recursion
and is enough whenever `n ≤ fuel`. -/
def decCharsAux : Nat → Nat → List Char
  | _, 0 => []
  | n, fuel + 1 =>
    if n = 0 then []
    else decCharsAux (n / 10) fuel ++ [Nat.digitChar (n % 10)]

/-- Decimal string of a natural number, as produced by JavaScript
template-string interpolation of a number. -/
def decStr (n : Nat) : String :=
  if n = 0 then "0" else String.mk (decCharsAux n n)

/-- Decode a big-endian list of decimal digit characters. -/
def decodeChars (cs : List Char) : Nat :=
  cs.foldl (fun acc c => acc * 10 + (c.toNat - 48)) 0

theorem digitChar_decode (d : Nat) (hd : d < 10) :
    (Nat.digitChar d).toNat - 48 = d := by
  interval_cases d <;> rfl

theorem decodeChars_append (cs : List Char) (c : Char) :
    decodeChars (cs ++ [c]) = decodeChars cs * 10 + (c.toNat - 48) := by
  simp [decodeChars, List.foldl_append]

theorem decodeChars_decCharsAux (n fuel : Nat) (hfuel : n ≤ fuel) :
    decodeChars (decCharsAux n fuel) = n := by
  induction fuel generalizing n with
  | zero =>
    have : n = 0 := Nat.le_zero.mp hfuel
    simp [this, decCharsAux, decodeChars]
  | succ fuel ih =>
    by_cases hn : n = 0
    · simp [hn, decCharsAux, decodeChars]
    · have hdiv : n / 10 ≤ fuel := by
        have h1 : n / 10 < n := Nat.div_lt_self (Nat.pos_of_ne_zero hn) (by omega)
        omega
      simp only [decCharsAux, hn, if_false, decodeChars_append, ih (n / 10) hdiv]
      rw [digitChar_decode (n % 10) (Nat.mod_lt n (by omega))]
      omega

theorem decodeChars_decStr (n : Nat) : decodeChars (decStr n).data = n := by
  by_cases hn : n = 0
  · simp [hn, decStr, decodeChars]
  · simp only [decStr, hn, if_false]
    exact decodeChars_decCharsAux n n (Nat.le_refl n)

theorem decStr_data_injective (p q : Nat)
    (h : (decStr p).data = (decStr q).data) : p = q := by
  have := decodeChars_decStr p
  rw [h, decodeChars_decStr q] at this
  exact this.symm

/-! ## String helpers -/

theorem string_data_append (s t : String) : (s ++ t).data = s.data ++ t.data := by
  cases s; cases t; rfl

theorem string_ne_of_data_ne (s t : String) (h : s.data ≠ t.data) : s ≠ t := by
  intro he; exact h (by rw [he])

/-! ## DaemonController: PID-file paths and operations

Modelled from the spec: the port-scoped revision of
`src/server/cli/daemon.js` is absent from the sources (the `daemon.js`
present is the earlier single-instance revision whose path helpers take no
port), while `commands.js` and `daemon.test.js` call
`getPidFilePath(port)`, `readPidFile(port)`, `writePidFile(pid, port)` and
`removePidFile(port)`. Per the spec (4.2): "omitting `port` selects the
default/global instance's paths, a concrete `port` selects a port-scoped
path"; the PID file is "optionally suffixed by port" (section 3), with the
concrete names `server.pid` / `server-<port>.pid` fixed by
`daemon.test.js`. -/

/-- Modelled from the spec: port-scoped PID file path below the resolved
runtime directory `dir` (`server.pid` for the default instance,
`server-<port>.pid` for a port-scoped instance). -/
def getPidFilePath (dir : String) (port : Option Nat) : String :=
  match port with
  | none => dir ++ "/server.pid"
  | some p => dir ++ "/server-" ++ decStr p ++ ".pid"

/-- The PID-file store: an association list from paths to the numeric
process id held by the file at that path. -/
abbrev PidStore := List (String × Int)

def storeRead (store : PidStore) (key : String) : Option Int :=
  match store.find? (fun kv => kv.1 == key) with
  | some kv => some kv.2
  | none => none

def storeWrite (store : PidStore) (key : String) (v : Int) : PidStore :=
  store.filter (fun kv => kv.1 != key) ++ [(key, v)]

def storeRemove (store : PidStore) (key : String) : PidStore :=
  store.filter (fun kv => kv.1 != key)

/-- `readPidFile(port)`: yields the pid stored in the PID file for `port`
when it is strictly positive, `none` otherwise (`daemon.js` checks
`Number.isFinite(pid_value) && pid_value > 0`; the textual parse itself is
modelled by `readPidContent` below). -/
def readPid (store : PidStore) (dir : String) (port : Option Nat) : Option Int :=
  match storeRead store (getPidFilePath dir port) with
  | some pid => if 0 < pid then some pid else none
  | none => none

/-- `writePidFile(pid, port)`. -/
def writePid (store : PidStore) (dir : String) (pid : Int) (port : Option Nat) : PidStore :=
  storeWrite store (getPidFilePath dir port) pid

/-- `removePidFile(port)`. -/
def removePid (store : PidStore) (dir : String) (port : Option Nat) : PidStore :=
  storeRemove store (getPidFilePath dir port)

theorem storeRead_write_ne (store : PidStore) (k k' : String) (v : Int)
    (h : k ≠ k') : storeRead (storeWrite store k v) k' = storeRead store k' := by
  induction store with
  | nil =>
    simp only [storeWrite, List.filter_nil, List.nil_append, storeRead, List.find?]
    have : (k == k') = false := by simpa using h
    rw [this]
  | cons kv rest ih =>
    simp only [storeWrite, List.filter_cons] at ih ⊢
    by_cases hk : kv.1 = k
    · have : (kv.1 != k) = false := by simp [hk]
      rw [this]
      simp only [if_neg Bool.false_ne_true]
      have hne : (kv.1 == k') = false := by
        simpa using hk ▸ h
      simp only [storeRead, List.find?, hne] at ih ⊢
      exact ih
    · have : (kv.1 != k) = true := by simp [hk]
      rw [this]
      simp only [if_pos rfl, List.cons_append]
      simp only [storeRead, List.find?] at ih ⊢
      cases hk' : (kv.1 == k') with
      | true => rfl
      | false => exact ih

theorem storeRead_remove_ne (store : PidStore) (k k' : String)
    (h : k ≠ k') : storeRead (storeRemove store k) k' = storeRead store k' := by
  induction store with
  | nil => rfl
  | cons kv rest ih =>
    simp only [storeRemove, List.filter_cons] at ih ⊢
    by_cases hk : kv.1 = k
    · have : (kv.1 != k) = false := by simp [hk]
      rw [this]
      simp only [if_neg Bool.false_ne_true]
      have hne : (kv.1 == k') = false := by
        simpa using hk ▸ h
      simp only [storeRead, List.find?, hne] at ih ⊢
      exact ih
    · have : (kv.1 != k) = true := by simp [hk]
      rw [this]
      simp only [if_pos rfl]
      simp only [storeRead, List.find?] at ih ⊢
      cases hk' : (kv.1 == k') with
      | true => rfl
      | false => exact ih

/-! Distinctness of the PID-file paths. -/

theorem getPidFilePath_scoped_ne_default (dir : String) (p : Nat) :
    getPidFilePath dir (some p) ≠ getPidFilePath dir none := by
  apply string_ne_of_data_ne
  intro h
  have hlen : (getPidFilePath dir (some p)).data.length
      = (getPidFilePath dir none).data.length := by rw [h]
  simp only [getPidFilePath, string_data_append, List.length_append,
    List.length_cons, List.length_nil] at hlen
  omega

theorem getPidFilePath_scoped_injective (dir : String) (p q : Nat)
    (h : p ≠ q) : getPidFilePath dir (some p) ≠ getPidFilePath dir (some q) := by
  apply string_ne_of_data_ne
  intro he
  simp only [getPidFilePath, string_data_append, List.append_assoc] at he
  have h1 := List.append_cancel_left he
  have h2 := List.append_cancel_left h1
  have h3 := List.append_cancel_right h2
  exact h (decStr_data_injective p q h3)

/-- C1: For every port p, the DaemonController's PID-file operations are
port-scoped: `pidFilePath(p)` — and hence `readPid(p)`, `writePid(pid, p)`
and `removePidFile(p)` — resolve to a path distinct from the default path
`pidFilePath()` and from `pidFilePath(q)` for every other port q, so that
multiple instances under one runtime directory never read, overwrite, or
delete each other's PID files. -/
theorem pid_file_operations_port_scoped (dir : String) (p q : Nat)
    (store : PidStore) (pid : Int) (hpq : p ≠ q) :
    getPidFilePath dir (some p) ≠ getPidFilePath dir none
    ∧ getPidFilePath dir (some p) ≠ getPidFilePath dir (some q)
    ∧ readPid (writePid store dir pid (some p)) dir (some q)
        = readPid store dir (some q)
    ∧ readPid (writePid store dir pid (some p)) dir none = readPid store dir none
    ∧ readPid (removePid store dir (some p)) dir (some q)
        = readPid store dir (some q)
    ∧ readPid (removePid store dir (some p)) dir none = readPid store dir none := by
  refine ⟨getPidFilePath_scoped_ne_default dir p,
    getPidFilePath_scoped_injective dir p q hpq, ?_, ?_, ?_, ?_⟩
  · simp only [readPid, writePid,
      storeRead_write_ne store _ _ pid (getPidFilePath_scoped_injective dir p q hpq)]
  · simp only [readPid, writePid,
      storeRead_write_ne store _ _ pid (getPidFilePath_scoped_ne_default dir p)]
  · simp only [readPid, removePid,
      storeRead_remove_ne store _ _ (getPidFilePath_scoped_injective dir p q hpq)]
  · simp only [readPid, removePid,
      storeRead_remove_ne store _ _ (getPidFilePath_scoped_ne_default dir p)]

/-- Witness for C1 at dir `/rt`, ports 3001 and 3002, pid 7. -/
theorem pid_file_operations_port_scoped_witness :
    (3001 : Nat) ≠ 3002
    ∧ (getPidFilePath ("/rt") (some 3001) ≠ getPidFilePath ("/rt") none
      ∧ getPidFilePath ("/rt") (some 3001) ≠ getPidFilePath ("/rt") (some 3002)
      ∧ readPid (writePid [] ("/rt") 7 (some 3001)) ("/rt") (some 3002)
          = readPid [] ("/rt") (some 3002)
      ∧ readPid (writePid [] ("/rt") 7 (some 3001)) ("/rt") none
          = readPid [] ("/rt") none
      ∧ readPid (removePid [] ("/rt") (some 3001)) ("/rt") (some 3002)
          = readPid [] ("/rt") (some 3002)
      ∧ readPid (removePid [] ("/rt") (some 3001)) ("/rt") none
          = readPid [] ("/rt") none) :=
  ⟨by decide, pid_file_operations_port_scoped ("/rt") 3001 3002 [] 7 (by decide)⟩

/-! ## InstanceRegistry (`src/server/cli/instance-registry.js`)

The registry file `~/.beads-ui/instances.json` holds an ordered list of
instance entries `{workspace, port, pid}`; `readInstanceRegistry` degrades
a missing or corrupt file to `[]`, and `writeInstanceRegistry` persists
atomically. The embedding works on the decoded list directly. -/

structure InstanceEntry where
  workspace : String
  port : Nat
  pid : Int
deriving Repr, DecidableEq

abbrev Registry := List InstanceEntry

/-- `registerInstance(entry)`: drop any entry with the same port, append
the new one. -/
def registerInstance (reg : Registry) (e : InstanceEntry) : Registry :=
  reg.filter (fun inst => inst.port != e.port) ++ [e]

/-- `unregisterInstance(port)`: drop the entry with that port. -/
def unregisterInstance (reg : Registry) (port : Nat) : Registry :=
  reg.filter (fun inst => inst.port != port)

/-- `isProcessRunning(pid)` from `daemon.js`: non-positive pids are never
running; otherwise the outcome of the zero-signal probe (`ESRCH` means
dead, any other outcome means alive) is the oracle `os`. -/
def isProcessRunningM (os : Int → Bool) (pid : Int) : Bool :=
  if pid ≤ 0 then false else os pid

/-- `cleanStaleInstances()`: filter to entries whose pid passes the
liveness probe; rewrite the registry file only when the length changed.
Returns the persisted registry plus whether a write happened (the
JavaScript function itself returns `undefined`). -/
def cleanStaleInstances (os : Int → Bool) (reg : Registry) : Registry × Bool :=
  let alive := reg.filter (fun inst => isProcessRunningM os inst.pid)
  if alive.length ≠ reg.length then (alive, true) else (reg, false)

/-! ## Path normalization (`path.resolve`) and workspace lookup

`findInstanceByWorkspace` normalizes paths with `path.resolve` before
comparing. The embedding models `path.resolve` for absolute inputs (the
registry data model stores absolute workspace paths): split on `/`,
drop empty and `.` segments, let `..` pop, and rejoin. -/

/-- Split a character list into `/`-separated segments. -/
def splitSegs : List Char → List Char → List (List Char)
  | [], cur => [cur.reverse]
  | c :: rest, cur =>
    if c = '/' then cur.reverse :: splitSegs rest []
    else splitSegs rest (c :: cur)

/-- Process one path segment against the (reversed) segment stack. -/
def resolveStep (acc : List (List Char)) (seg : List Char) : List (List Char) :=
  if seg = [] ∨ seg = ['.'] then acc
  else if seg = ['.', '.'] then acc.tail
  else seg :: acc

/-- Rejoin segments, each preceded by `/`. -/
def joinSegs : List (List Char) → List Char
  | [] => []
  | seg :: rest => '/' :: (seg ++ joinSegs rest)

/-- `path.resolve(s)` for an absolute `s`: normalize away empty, `.` and
`..` segments. -/
def pathResolve (s : String) : String :=
  let stack := (splitSegs s.data []).foldl resolveStep []
  if stack = [] then "/" else String.mk (joinSegs stack.reverse)

/-- Boolean list-prefix test, modelling JavaScript `String.startsWith`. -/
def isPrefixList : List Char → List Char → Bool
  | [], _ => true
  | _ :: _, [] => false
  | a :: as, b :: bs => a == b && isPrefixList as bs

/-- `findInstanceByWorkspace(workspace)`: first pass looks for an exact
normalized-path match over the whole registry; only if none matches does a
second pass look for a record whose workspace plus `/` is a prefix of the
query. -/
def findInstanceByWorkspace (reg : Registry) (workspace : String) : Option InstanceEntry :=
  let normalized := pathResolve workspace
  match reg.find? (fun inst => pathResolve inst.workspace == normalized) with
  | some inst => some inst
  | none =>
    reg.find? (fun inst =>
      isPrefixList (pathResolve inst.workspace ++ "/").data normalized.data)

/-- C4: `register(e)` followed by `read()` yields a list whose records with
`e`'s port are exactly `[e]` (so that record holds `e`'s workspace and
pid), and a second `register` with the same port replaces the prior record
rather than duplicating it, so the registry length does not grow. -/
theorem register_upserts_by_port (reg : Registry) (e e' : InstanceEntry) :
    (registerInstance reg e).filter (fun inst => inst.port == e.port) = [e]
    ∧ (e'.port = e.port →
        (registerInstance (registerInstance reg e) e').length
          = (registerInstance reg e).length) := by
  constructor
  · simp only [registerInstance, List.filter_append]
    have h1 : (reg.filter (fun inst => inst.port != e.port)).filter
        (fun inst => inst.port == e.port) = [] := by
      rw [List.filter_eq_nil_iff]
      intro a ha
      have := List.of_mem_filter ha
      simp only [bne_iff_ne, ne_eq] at this
      simp only [this, not_false_eq_true, beq_iff_eq]
    rw [h1]
    simp [List.filter]
  · intro hport
    simp only [registerInstance, List.filter_append, hport, List.filter_filter]
    have hself : ∀ inst : InstanceEntry,
        ((inst.port != e.port) && (inst.port != e.port)) = (inst.port != e.port) := by
      intro inst; exact Bool.and_self _
    simp only [hself]
    have he : [e].filter (fun inst => inst.port != e.port) = [] := by
      simp [List.filter]
    rw [he]
    simp [List.length_append]

/-- Witness for C4 at a one-record registry and two same-port entries. -/
theorem register_upserts_by_port_witness :
    (InstanceEntry.mk ("/b") 3001 9).port = (InstanceEntry.mk ("/b") 3001 6).port
    ∧ (registerInstance [⟨"/a", 3000, 5⟩] ⟨"/b", 3001, 6⟩).filter
        (fun inst => inst.port == (InstanceEntry.mk ("/b") 3001 6).port)
        = [⟨"/b", 3001, 6⟩]
    ∧ (registerInstance (registerInstance [⟨"/a", 3000, 5⟩] ⟨"/b", 3001, 6⟩)
          ⟨"/b", 3001, 9⟩).length
        = (registerInstance [⟨"/a", 3000, 5⟩] ⟨"/b", 3001, 6⟩).length :=
  ⟨by decide,
    (register_upserts_by_port [⟨"/a", 3000, 5⟩] ⟨"/b", 3001, 6⟩ ⟨"/b", 3001, 9⟩).1,
    (register_upserts_by_port [⟨"/a", 3000, 5⟩] ⟨"/b", 3001, 6⟩ ⟨"/b", 3001, 9⟩).2 rfl⟩

/-- C10: the exact-match pass runs over every record before any ancestor
match is considered, so an exact match wins regardless of registry order;
the ancestor pass requires the registered workspace plus a path separator
to be a prefix of the query, so a sibling directory sharing a textual
prefix (querying `/p1-other` with `/p1` registered) is never matched. -/
theorem findInstanceByWorkspace_exact_first (reg : Registry) (ws : String) :
    (∀ inst, reg.find? (fun i => pathResolve i.workspace == pathResolve ws)
        = some inst → findInstanceByWorkspace reg ws = some inst)
    ∧ (reg.find? (fun i => pathResolve i.workspace == pathResolve ws) = none →
        ∀ inst, findInstanceByWorkspace reg ws = some inst →
          isPrefixList (pathResolve inst.workspace ++ "/").data
            (pathResolve ws).data = true)
    ∧ findInstanceByWorkspace [⟨"/p1", 4000, 5⟩] ("/p1-other") = none := by
  refine ⟨?_, ?_, by decide⟩
  · intro inst h
    simp only [findInstanceByWorkspace, h]
  · intro hnone inst h
    simp only [findInstanceByWorkspace, hnone] at h
    have hp := List.find?_some h
    exact hp

/-- Witness for C10: an exact match at the second position wins over an
ancestor match sitting at the first position. -/
theorem findInstanceByWorkspace_exact_first_witness :
    ([⟨"/p1", 4000, 5⟩, ⟨"/p1/sub", 4001, 6⟩] : Registry).find?
        (fun i => pathResolve i.workspace == pathResolve ("/p1/sub"))
        = some ⟨"/p1/sub", 4001, 6⟩
    ∧ findInstanceByWorkspace [⟨"/p1", 4000, 5⟩, ⟨"/p1/sub", 4001, 6⟩] ("/p1/sub")
        = some ⟨"/p1/sub", 4001, 6⟩ :=
  ⟨by decide,
    (findInstanceByWorkspace_exact_first [⟨"/p1", 4000, 5⟩, ⟨"/p1/sub", 4001, 6⟩]
      ("/p1/sub")).1 ⟨"/p1/sub", 4001, 6⟩ (by decide)⟩

/-! ## The older name-keyed registry (`registry.js`)

`registry.js` keys records by project name in `~/.bdui/instances.json`.
Its `cleanRegistry` is the only stale-cleanup that returns a count; its
filter keeps every record with a positive pid ("Keep entry even if
stopped - only remove if PID is invalid") and it calls `writeRegistry`
unconditionally. -/

structure RegData where
  path : String
  port : Nat
  pid : Int
deriving Repr, DecidableEq

abbrev NameRegistry := List (String × RegData)

/-- `cleanRegistry()`: keep records whose `pid > 0`, write the result back
unconditionally, return the number of dropped records (the final `Bool` is
whether `writeRegistry` ran — always `true`). -/
def cleanRegistry (reg : NameRegistry) : NameRegistry × Nat × Bool :=
  let clean := reg.filter (fun pr => 0 < pr.2.pid)
  (clean, reg.length - clean.length, true)

/-- C3 counterexample: a record whose positive pid (7) fails the liveness
probe. The claim says `cleanStale` removes it and returns 1; `cleanRegistry`
— the only cleanup that returns a count — keeps it and returns 0. -/
theorem cleanStale_liveness_counterexample :
    isProcessRunningM (fun _ => false) 7 = false
    ∧ (cleanRegistry [(("proj"), ⟨"/proj", 4001, 7⟩)]).1
        = [(("proj"), ⟨"/proj", 4001, 7⟩)]
    ∧ (cleanRegistry [(("proj"), ⟨"/proj", 4001, 7⟩)]).2.1 = 0
    ∧ (cleanRegistry [(("proj"), ⟨"/proj", 4001, 7⟩)]).2.2 = true := by
  decide

/-- C3 amended: `cleanStaleInstances` (the cleanup the current commands
use) removes exactly the records whose pid fails the liveness probe and
rewrites the registry file only if anything changed, but returns no count;
`cleanRegistry` (the older name-keyed registry) returns the exact count of
the records it drops, but it drops exactly the records with pid ≤ 0 —
keeping records whose positive pid fails the liveness probe — and always
rewrites the registry file. -/
theorem cleanStale_cleanRegistry_behavior (os : Int → Bool) (reg : Registry)
    (nreg : NameRegistry) :
    (cleanStaleInstances os reg).1
        = reg.filter (fun inst => isProcessRunningM os inst.pid)
    ∧ ((cleanStaleInstances os reg).2 = true ↔ (cleanStaleInstances os reg).1 ≠ reg)
    ∧ (cleanRegistry nreg).1 = nreg.filter (fun pr => 0 < pr.2.pid)
    ∧ (cleanRegistry nreg).2.1 = nreg.length - (cleanRegistry nreg).1.length
    ∧ (cleanRegistry nreg).2.2 = true := by
  have hsub : List.Sublist (reg.filter (fun inst => isProcessRunningM os inst.pid)) reg :=
    List.filter_sublist reg
  by_cases hlen : (reg.filter (fun inst => isProcessRunningM os inst.pid)).length
      = reg.length
  · have heq : reg.filter (fun inst => isProcessRunningM os inst.pid) = reg :=
      hsub.eq_of_length hlen
    refine ⟨?_, ?_, rfl, rfl, rfl⟩
    · simp [cleanStaleInstances, hlen, heq]
    · simp [cleanStaleInstances, hlen, heq]
  · refine ⟨?_, ?_, rfl, rfl, rfl⟩
    · simp [cleanStaleInstances, hlen]
    · have hne : reg.filter (fun inst => isProcessRunningM os inst.pid) ≠ reg := by
        intro he; exact hlen (by rw [he])
      simp [cleanStaleInstances, hlen, hne]

/-! ## CommandOrchestrator (`src/server/cli/commands.js`)

Commands read and mutate two filesystem stores — the PID files and the
instance registry — and probe or terminate OS processes. The embedding
threads a `World` (runtime directory, current working directory, registry
contents, PID-file store) and takes the signal probe `os` and the outcome
of `terminateProcess(pid, 5000)` as boolean oracles (`term pid` is whether
termination confirmed death within the timeout). -/

structure World where
  runtimeDir : String
  cwd : String
  registry : Registry
  pidFiles : PidStore
deriving Repr, DecidableEq

/-- `handleStop(options)` from `commands.js`: read the PID file for the
port, always unregister the registry entry for the port (self-healing),
then: no PID file — succeed (0); stale pid — remove the PID file and
succeed (0); live pid — terminate with the 5000 ms timeout, removing the
PID file on success (0), or fail (1) leaving the PID file in place. -/
def handleStop (os term : Int → Bool) (w : World) (port : Option Nat) : Nat × World :=
  let existing := readPid w.pidFiles w.runtimeDir port
  let w1 := match port with
    | some p => { w with registry := unregisterInstance w.registry p }
    | none => w
  match existing with
  | none => (0, w1)
  | some pid =>
    if isProcessRunningM os pid = false then
      (0, { w1 with pidFiles := removePid w1.pidFiles w1.runtimeDir port })
    else if term pid then
      (0, { w1 with pidFiles := removePid w1.pidFiles w1.runtimeDir port })
    else (1, w1)

/-- C2 counterexample: registry `{/proj, 3001, 42}`, PID file for port 3001
holding live pid 42, termination fails. `stop --port 3001` returns 1 and
leaves the PID file, but the registry entry is gone — it was unregistered
up front, so the state is not left unchanged. -/
theorem stop_timeout_counterexample :
    readPid [((getPidFilePath ("/rt") (some 3001)), 42)] ("/rt") (some 3001) = some 42
    ∧ isProcessRunningM (fun p => p == 42) 42 = true
    ∧ (fun _ : Int => false) 42 = false
    ∧ (handleStop (fun p => p == 42) (fun _ => false)
        ⟨"/rt", "/proj", [⟨"/proj", 3001, 42⟩],
          [((getPidFilePath ("/rt") (some 3001)), 42)]⟩ (some 3001)).1 = 1
    ∧ (handleStop (fun p => p == 42) (fun _ => false)
        ⟨"/rt", "/proj", [⟨"/proj", 3001, 42⟩],
          [((getPidFilePath ("/rt") (some 3001)), 42)]⟩ (some 3001)).2.registry
        ≠ [⟨"/proj", 3001, 42⟩] := by
  decide

/-- C2 amended: if `stop` finds a live pid and `terminateProcess` fails to
confirm death within the 5000 ms timeout, it returns exit code 1 and the
PID file is left unchanged — but the registry entry for the port has
already been unregistered unconditionally at entry, so only the PID file
is left for a retry to pick up. -/
theorem stop_timeout_keeps_pid_file (os term : Int → Bool) (w : World) (p : Nat)
    (pid : Int) (hread : readPid w.pidFiles w.runtimeDir (some p) = some pid)
    (halive : isProcessRunningM os pid = true) (hterm : term pid = false) :
    handleStop os term w (some p)
      = (1, { w with registry := unregisterInstance w.registry p }) := by
  simp [handleStop, hread, halive, hterm]

/-- Witness for C2's amended theorem at the counterexample state. -/
theorem stop_timeout_keeps_pid_file_witness :
    readPid [((getPidFilePath ("/rt") (some 3001)), 42)] ("/rt") (some 3001) = some 42
    ∧ isProcessRunningM (fun p => p == 42) 42 = true
    ∧ (fun _ : Int => false) 42 = false
    ∧ handleStop (fun p => p == 42) (fun _ => false)
        ⟨"/rt", "/proj", [⟨"/proj", 3001, 42⟩],
          [((getPidFilePath ("/rt") (some 3001)), 42)]⟩ (some 3001)
        = (1, { World.mk ("/rt") ("/proj") [⟨"/proj", 3001, 42⟩]
              [((getPidFilePath ("/rt") (some 3001)), 42)] with
            registry := unregisterInstance [⟨"/proj", 3001, 42⟩] 3001 }) :=
  ⟨by decide, by decide, rfl,
    stop_timeout_keeps_pid_file (fun p => p == 42) (fun _ => false)
      ⟨"/rt", "/proj", [⟨"/proj", 3001, 42⟩],
        [((getPidFilePath ("/rt") (some 3001)), 42)]⟩ 3001 42
      (by decide) (by decide) rfl⟩

/-- C5: for a port with no PID file and no registry entry, `stop` succeeds
trivially with exit code 0 — not an error and not the "was not running"
code 2 — and the world is unchanged. -/
theorem stop_no_state_trivial_success (os term : Int → Bool) (w : World) (p : Nat)
    (hread : readPid w.pidFiles w.runtimeDir (some p) = none)
    (hreg : ∀ inst ∈ w.registry, inst.port ≠ p) :
    handleStop os term w (some p) = (0, w) := by
  have hunreg : unregisterInstance w.registry p = w.registry := by
    rw [unregisterInstance, List.filter_eq_self]
    intro inst hinst
    simpa using hreg inst hinst
  simp [handleStop, hread, hunreg]

/-- Witness for C5: empty registry and PID-file store, port 5000. -/
theorem stop_no_state_trivial_success_witness :
    readPid ([] : PidStore) ("/rt") (some 5000) = none
    ∧ handleStop (fun _ => false) (fun _ => false) ⟨"/rt", "/x", [], []⟩ (some 5000)
        = (0, ⟨"/rt", "/x", [], []⟩) :=
  ⟨by decide,
    stop_no_state_trivial_success (fun _ => false) (fun _ => false)
      ⟨"/rt", "/x", [], []⟩ 5000 (by decide) (by intro inst h; cases h)⟩

/-- What `handleList` prints: the default/global instance's pid when its
PID file exists and its pid is alive, plus every registry record annotated
with its computed running flag. -/
structure ListReport where
  globalPid : Option Int
  rows : List (InstanceEntry × Bool)
deriving Repr, DecidableEq

/-- `handleList()` from `commands.js`: read the registry and the default
PID file, probe liveness, print — a read-only operation returning exit
code 0 and the world untouched. -/
def handleList (os : Int → Bool) (w : World) : Nat × World × ListReport :=
  let instances := w.registry
  let global_pid := readPid w.pidFiles w.runtimeDir none
  let shown := match global_pid with
    | some gp => if isProcessRunningM os gp then some gp else none
    | none => none
  (0, w, ⟨shown, instances.map (fun inst => (inst, isProcessRunningM os inst.pid))⟩)

/-- C7: `list` is read-only — for every registry and PID-file state it
leaves the world (registry contents included) unchanged, never cleaning
stale entries — while reporting the default/global instance when its PID
file exists and its pid is alive, and every registry record (stale ones
included) annotated as running or stale. -/
theorem list_read_only (os : Int → Bool) (w : World) :
    (handleList os w).2.1 = w
    ∧ (handleList os w).1 = 0
    ∧ (∀ inst ∈ w.registry,
        (inst, isProcessRunningM os inst.pid) ∈ (handleList os w).2.2.rows)
    ∧ (handleList os w).2.2.rows.length = w.registry.length
    ∧ (∀ gp, readPid w.pidFiles w.runtimeDir none = some gp →
        isProcessRunningM os gp = true → (handleList os w).2.2.globalPid = some gp)
    ∧ (readPid w.pidFiles w.runtimeDir none = none →
        (handleList os w).2.2.globalPid = none) := by
  refine ⟨rfl, rfl, ?_, by simp [handleList], ?_, ?_⟩
  · intro inst hinst
    simp only [handleList]
    exact List.mem_map_of_mem (fun i => (i, isProcessRunningM os i.pid)) hinst
  · intro gp hgp halive
    simp [handleList, hgp, halive]
  · intro hnone
    simp [handleList, hnone]

/-- Witness for C7: a registry with one live and one stale record plus a
running global instance; `list` reports all of it and changes nothing. -/
theorem list_read_only_witness :
    (handleList (fun p => p == 11)
        ⟨"/rt", "/p1", [⟨"/p1", 4000, 11⟩, ⟨"/p2", 4001, 12⟩],
          [((getPidFilePath ("/rt") none), 11)]⟩).2.1
      = ⟨"/rt", "/p1", [⟨"/p1", 4000, 11⟩, ⟨"/p2", 4001, 12⟩],
          [((getPidFilePath ("/rt") none), 11)]⟩
    ∧ (InstanceEntry.mk ("/p2") 4001 12,
        isProcessRunningM (fun p => p == 11) 12) ∈ (handleList (fun p => p == 11)
        ⟨"/rt", "/p1", [⟨"/p1", 4000, 11⟩, ⟨"/p2", 4001, 12⟩],
          [((getPidFilePath ("/rt") none), 11)]⟩).2.2.rows :=
  ⟨(list_read_only (fun p => p == 11)
      ⟨"/rt", "/p1", [⟨"/p1", 4000, 11⟩, ⟨"/p2", 4001, 12⟩],
        [((getPidFilePath ("/rt") none), 11)]⟩).1,
    (list_read_only (fun p => p == 11)
      ⟨"/rt", "/p1", [⟨"/p1", 4000, 11⟩, ⟨"/p2", 4001, 12⟩],
        [((getPidFilePath ("/rt") none), 11)]⟩).2.2.1 ⟨"/p2", 4001, 12⟩
      (by decide)⟩

/-! ## `handleStart` (`commands.js`)

The outcome of one `start` invocation: exit code, resulting world, the
port option passed to `startDaemon` when it was invoked, and the start
port handed to `findAvailablePort` when port scanning was consulted.
`startDaemon` is abstracted by `spawnRes`, the pid of the spawned child
(or `none` on spawn failure); on success it persists the PID file for the
port it was given before returning. -/

structure StartResult where
  code : Nat
  world : World
  spawnedPort : Option (Option Nat)
  scanStart : Option Nat
deriving Repr, DecidableEq

/-- Final phase of `handleStart`: spawn the daemon; on success persist the
PID file and, in new-instance mode with a concrete port, register
`{workspace: cwd, port, pid}`. -/
def startSpawn (spawnRes : Option Int) (w : World) (new_instance : Bool)
    (port : Option Nat) (scanUsed : Option Nat) : StartResult :=
  match spawnRes with
  | some cpid =>
    if 0 < cpid then
      let w1 := { w with pidFiles := writePid w.pidFiles w.runtimeDir cpid port }
      let w2 :=
        if new_instance then
          match port with
          | some p =>
            { w1 with registry := registerInstance w1.registry ⟨w1.cwd, p, cpid⟩ }
          | none => w1
        else w1
      ⟨0, w2, some port, scanUsed⟩
    else ⟨1, w, some port, scanUsed⟩
  | none => ⟨1, w, some port, scanUsed⟩

/-- `handleStart` phase: check the PID file for the resolved port (the
default file outside new-instance mode). A live pid is "already running"
(success outside new-instance mode, an error inside it); a stale pid gets
its PID file removed before spawning. -/
def startCheckExisting (os : Int → Bool) (spawnRes : Option Int) (w : World)
    (new_instance : Bool) (port : Option Nat) (scanUsed : Option Nat) : StartResult :=
  let key := if new_instance then port else none
  match readPid w.pidFiles w.runtimeDir key with
  | some pid =>
    if isProcessRunningM os pid then
      if new_instance then ⟨1, w, none, scanUsed⟩
      else ⟨0, w, none, scanUsed⟩
    else
      startSpawn spawnRes { w with pidFiles := removePid w.pidFiles w.runtimeDir key }
        new_instance port scanUsed
  | none => startSpawn spawnRes w new_instance port scanUsed

/-- `handleStart` phase: when no port is resolved yet and we are in
new-instance mode, scan from 3001 if the default/global instance is alive,
else from 3000; without new-instance mode the port stays unset. -/
def startAutoPort (os : Int → Bool) (scan : Nat → Option Nat) (spawnRes : Option Int)
    (w : World) (new_instance : Bool) (port : Option Nat) : StartResult :=
  match port with
  | some p => startCheckExisting os spawnRes w new_instance (some p) none
  | none =>
    if new_instance then
      let start_port :=
        match readPid w.pidFiles w.runtimeDir none with
        | some gp => if isProcessRunningM os gp then 3001 else 3000
        | none => 3000
      match scan start_port with
      | none => ⟨1, w, none, some start_port⟩
      | some fp => startCheckExisting os spawnRes w new_instance (some fp) (some start_port)
    else startCheckExisting os spawnRes w new_instance none none

/-- `handleStart(options)` from `commands.js`. In new-instance mode, an
existing record for the current workspace is handled first: a dead
(orphaned) record has its PID file and registry entry removed and its port
reused when none was requested; a live one is terminated first (failure
aborts with exit 1 before any cleanup). Then stale registry entries are
cleaned and the remaining phases run. -/
def handleStart (os term : Int → Bool) (scan : Nat → Option Nat) (spawnRes : Option Int)
    (w : World) (new_instance : Bool) (optPort : Option Nat) : StartResult :=
  if new_instance then
    match findInstanceByWorkspace w.registry w.cwd with
    | some existing =>
      if isProcessRunningM os existing.pid then
        if term existing.pid then
          let w1 := { w with
            pidFiles := removePid w.pidFiles w.runtimeDir (some existing.port),
            registry := unregisterInstance w.registry existing.port }
          let port1 := match optPort with
            | none => some existing.port
            | some p => some p
          startAutoPort os scan spawnRes
            { w1 with registry := (cleanStaleInstances os w1.registry).1 } true port1
        else ⟨1, w, none, none⟩
      else
        let w1 := { w with
          pidFiles := removePid w.pidFiles w.runtimeDir (some existing.port),
          registry := unregisterInstance w.registry existing.port }
        let port1 := match optPort with
          | none => some existing.port
          | some p => some p
        startAutoPort os scan spawnRes
          { w1 with registry := (cleanStaleInstances os w1.registry).1 } true port1
    | none =>
      startAutoPort os scan spawnRes
        { w with registry := (cleanStaleInstances os w.registry).1 } true optPort
  else
    startAutoPort os scan spawnRes
      { w with registry := (cleanStaleInstances os w.registry).1 } false optPort

theorem storeRead_remove_self (store : PidStore) (k : String) :
    storeRead (storeRemove store k) k = none := by
  induction store with
  | nil => rfl
  | cons kv rest ih =>
    simp only [storeRemove, List.filter_cons] at ih ⊢
    by_cases hk : kv.1 = k
    · have : (kv.1 != k) = false := by simp [hk]
      rw [this]
      simp only [if_neg Bool.false_ne_true]
      exact ih
    · have : (kv.1 != k) = true := by simp [hk]
      rw [this]
      simp only [if_pos rfl]
      have hne : (kv.1 == k) = false := by simpa using hk
      simp only [storeRead, List.find?, hne] at ih ⊢
      exact ih

theorem storeRead_write_self (store : PidStore) (k : String) (v : Int) :
    storeRead (storeWrite store k v) k = some v := by
  induction store with
  | nil => simp [storeWrite, storeRead, List.find?]
  | cons kv rest ih =>
    simp only [storeWrite, List.filter_cons] at ih ⊢
    by_cases hk : kv.1 = k
    · have : (kv.1 != k) = false := by simp [hk]
      rw [this]
      simp only [if_neg Bool.false_ne_true]
      exact ih
    · have : (kv.1 != k) = true := by simp [hk]
      rw [this]
      simp only [if_pos rfl, List.cons_append]
      have hne : (kv.1 == k) = false := by simpa using hk
      simp only [storeRead, List.find?, hne] at ih ⊢
      exact ih

theorem mem_registerInstance_port (reg : Registry) (e inst : InstanceEntry)
    (hmem : inst ∈ registerInstance reg e) (hport : inst.port = e.port) :
    inst = e := by
  simp only [registerInstance, List.mem_append] at hmem
  cases hmem with
  | inl h =>
    have := List.of_mem_filter h
    simp only [bne_iff_ne, ne_eq] at this
    exact absurd hport this
  | inr h => simpa using h

/-- C6: with a dead orphaned record registered for the current workspace
and no explicit port, `start` in new-instance mode removes that record's
PID file and registry entry and reuses the record's port for the new
spawn — `findAvailablePort` is never consulted — and on a successful spawn
the reused port's PID file holds the new pid and the registry holds only
the replacement record at that port. -/
theorem start_reuses_orphan_port (os term : Int → Bool) (scan : Nat → Option Nat)
    (cpid : Int) (w : World) (ex : InstanceEntry)
    (hfind : findInstanceByWorkspace w.registry w.cwd = some ex)
    (hdead : isProcessRunningM os ex.pid = false)
    (hcpid : 0 < cpid) :
    handleStart os term scan (some cpid) w true none
      = ⟨0,
          { runtimeDir := w.runtimeDir, cwd := w.cwd,
            registry := registerInstance
              (cleanStaleInstances os (unregisterInstance w.registry ex.port)).1
              ⟨w.cwd, ex.port, cpid⟩,
            pidFiles := writePid (removePid w.pidFiles w.runtimeDir (some ex.port))
              w.runtimeDir cpid (some ex.port) },
          some (some ex.port), none⟩
    ∧ readPid (handleStart os term scan (some cpid) w true none).world.pidFiles
        w.runtimeDir (some ex.port) = some cpid
    ∧ ∀ inst ∈ (handleStart os term scan (some cpid) w true none).world.registry,
        inst.port = ex.port → inst = ⟨w.cwd, ex.port, cpid⟩ := by
  have hkey := storeRead_remove_self w.pidFiles (getPidFilePath w.runtimeDir (some ex.port))
  have hmain : handleStart os term scan (some cpid) w true none
      = ⟨0,
          { runtimeDir := w.runtimeDir, cwd := w.cwd,
            registry := registerInstance
              (cleanStaleInstances os (unregisterInstance w.registry ex.port)).1
              ⟨w.cwd, ex.port, cpid⟩,
            pidFiles := writePid (removePid w.pidFiles w.runtimeDir (some ex.port))
              w.runtimeDir cpid (some ex.port) },
          some (some ex.port), none⟩ := by
    simp [handleStart, hfind, hdead, startAutoPort, startCheckExisting, startSpawn,
      readPid, removePid, hkey, hcpid]
  refine ⟨hmain, ?_, ?_⟩
  · rw [hmain]
    simp [readPid, writePid, storeRead_write_self, hcpid]
  · rw [hmain]
    intro inst hm hp
    exact mem_registerInstance_port _ _ inst hm hp

/-- Witness for C6: workspace `/proj` with a dead orphan on port 3005, no
explicit port, a port scanner that would fail if consulted; the spawn on
port 3005 succeeds with pid 99. -/
theorem start_reuses_orphan_port_witness :
    findInstanceByWorkspace [⟨"/proj", 3005, 77⟩] ("/proj") = some ⟨"/proj", 3005, 77⟩
    ∧ isProcessRunningM (fun _ => false) 77 = false
    ∧ (0 : Int) < 99
    ∧ readPid (handleStart (fun _ => false) (fun _ => false) (fun _ => none) (some 99)
        ⟨"/rt", "/proj", [⟨"/proj", 3005, 77⟩],
          [((getPidFilePath ("/rt") (some 3005)), 77)]⟩ true none).world.pidFiles
        ("/rt") (some 3005) = some 99 :=
  ⟨by decide, by decide, by decide,
    (start_reuses_orphan_port (fun _ => false) (fun _ => false) (fun _ => none) 99
      ⟨"/rt", "/proj", [⟨"/proj", 3005, 77⟩],
        [((getPidFilePath ("/rt") (some 3005)), 77)]⟩ ⟨"/proj", 3005, 77⟩
      (by decide) (by decide) (by decide)).2.1⟩

/-! ## ProjectDiscovery (`discover.js`)

`findBeadsProjects(search_path, max_depth)` walks a directory tree.
Directories are modelled as an inductive tree; a directory that cannot be
read (permission error in `fs.readdirSync`) carries `readable = false`.
Paths are segment lists relative to the search root (modelling
`path.join(dir, entry.name)`). -/

inductive FsEntry where
  | file (name : String)
  | dir (name : String) (readable : Bool) (children : List FsEntry)
deriving Repr

/-- The skip list in `findBeadsProjects`: `node_modules`, `.git`, `dist`,
`build`, and any name starting with a dot. -/
def ignoredName (n : String) : Bool :=
  n == "node_modules" || n == ".git" || n == "dist" || n == "build"
    || (match n.data with | c :: _ => c == '.' | [] => false)

/-- `entries.some((e) => e.isDirectory() && e.name === '.beads')`. -/
def hasBeadsMarker (entries : List FsEntry) : Bool :=
  entries.any (fun e =>
    match e with
    | .dir n _ _ => n == ".beads"
    | .file _ => false)

mutual

/-- The inner `walk(dir, depth)` of `findBeadsProjects`: stop beyond
`max_depth`; an unreadable directory (or a non-directory) is skipped
silently; a directory containing the `.beads` marker is recorded and not
recursed into; otherwise recurse into the non-ignored subdirectories. -/
def walkDir (maxDepth : Nat) (e : FsEntry) (depth : Nat) (path : List String) :
    List (List String) :=
  if maxDepth < depth then []
  else
    match e with
    | .file _ => []
    | .dir _ false _ => []
    | .dir _ true children =>
      if hasBeadsMarker children then [path]
      else walkChildren maxDepth children depth path

/-- The `for (const entry of entries)` loop: skip files and ignored names,
recurse into the rest one level deeper. -/
def walkChildren (maxDepth : Nat) (cs : List FsEntry) (depth : Nat)
    (path : List String) : List (List String) :=
  match cs with
  | [] => []
  | c :: rest =>
    (match c with
     | .dir n _ _ =>
       if ignoredName n then [] else walkDir maxDepth c (depth + 1) (path ++ [n])
     | .file _ => []) ++ walkChildren maxDepth rest depth path

end

/-- `findBeadsProjects(search_path, max_depth)` = `walk(search_path, 0)`. -/
def findBeadsProjects (root : FsEntry) (maxDepth : Nat) : List (List String) :=
  walkDir maxDepth root 0 []

theorem walkChildren_paths_aux (n maxDepth : Nat)
    (ih : ∀ (e : FsEntry), sizeOf e ≤ n → ∀ (maxDepth depth : Nat) (path : List String),
      ∀ p ∈ walkDir maxDepth e depth path,
        ∃ extra, p = path ++ extra ∧ ∀ s ∈ extra, ignoredName s = false) :
    ∀ (cs : List FsEntry), (∀ c ∈ cs, sizeOf c ≤ n) →
      ∀ (depth : Nat) (path : List String),
        ∀ p ∈ walkChildren maxDepth cs depth path,
          ∃ extra, p = path ++ extra ∧ ∀ s ∈ extra, ignoredName s = false := by
  intro cs
  induction cs with
  | nil =>
    intro _ depth path p hp
    simp [walkChildren.eq_def] at hp
  | cons c rest ihrest =>
    intro hcs depth path p hp
    rw [walkChildren.eq_def] at hp
    simp only [List.mem_append] at hp
    cases hp with
    | inl hL =>
      cases c with
      | file nm2 => simp at hL
      | dir nm2 r2 cs2 =>
        by_cases hig : ignoredName nm2 = true
        · simp [hig] at hL
        · simp only [hig, if_false] at hL
          have hc : sizeOf (FsEntry.dir nm2 r2 cs2) ≤ n :=
            hcs _ (List.mem_cons_self _ _)
          obtain ⟨extra, hpe, hall⟩ :=
            ih _ hc maxDepth (depth + 1) (path ++ [nm2]) p hL
          refine ⟨nm2 :: extra, by simpa [List.append_assoc] using hpe, ?_⟩
          intro s hs
          cases hs with
          | head => simpa using hig
          | tail _ hs' => exact hall s hs'
    | inr hR =>
      exact ihrest (fun c' hc' => hcs c' (List.mem_cons_of_mem c hc')) depth path p hR

theorem walkDir_paths_aux (n : Nat) :
    ∀ (e : FsEntry), sizeOf e ≤ n → ∀ (maxDepth depth : Nat) (path : List String),
      ∀ p ∈ walkDir maxDepth e depth path,
        ∃ extra, p = path ++ extra ∧ ∀ s ∈ extra, ignoredName s = false := by
  induction n with
  | zero =>
    intro e hsize
    have hpos : 0 < sizeOf e := by cases e <;> simp_arith
    omega
  | succ n ih =>
    intro e hsize maxDepth depth path p hp
    by_cases hd : maxDepth < depth
    · simp [walkDir.eq_def, hd] at hp
    · cases e with
      | file nm => simp [walkDir.eq_def, hd] at hp
      | dir nm r cs =>
        cases r with
        | false => simp [walkDir.eq_def, hd] at hp
        | true =>
          by_cases hmark : hasBeadsMarker cs = true
          · simp only [walkDir.eq_def, hd, if_false, hmark, if_true, List.mem_singleton] at hp
            exact ⟨[], by simpa using hp, by intro s hs; cases hs⟩
          · simp only [walkDir.eq_def, hd, if_false, hmark] at hp
            have hcs : ∀ c ∈ cs, sizeOf c ≤ n := by
              intro c hc
              have h1 := List.sizeOf_lt_of_mem hc
              have h2 : sizeOf (FsEntry.dir nm true cs) ≤ n + 1 := hsize
              simp only [FsEntry.dir.sizeOf_spec] at h2
              omega
            exact walkChildren_paths_aux n maxDepth ih cs hcs depth path p hp

/-- C8: `findProjects(root, maxDepth)` invariants — a directory with the
`.beads` marker is recorded and never recursed into (within the depth
bound it contributes exactly its own path); every recorded project path
consists solely of non-ignored, non-dot segments, so ignored directories
are never visited; an ignored-name subdirectory contributes nothing to the
walk; and an unreadable directory is skipped silently, contributing the
empty result instead of aborting. -/
theorem findProjects_walk_invariants :
    (∀ (maxDepth depth : Nat) (path : List String) (nm : String)
        (cs : List FsEntry), depth ≤ maxDepth → hasBeadsMarker cs = true →
          walkDir maxDepth (.dir nm true cs) depth path = [path])
    ∧ (∀ (root : FsEntry) (maxDepth : Nat), ∀ p ∈ findBeadsProjects root maxDepth,
        ∀ s ∈ p, ignoredName s = false)
    ∧ (∀ (maxDepth depth : Nat) (path : List String) (nm : String)
        (cs : List FsEntry), walkDir maxDepth (.dir nm false cs) depth path = [])
    ∧ (∀ (maxDepth depth : Nat) (path : List String) (nm : String) (r : Bool)
        (cs rest : List FsEntry), ignoredName nm = true →
          walkChildren maxDepth (.dir nm r cs :: rest) depth path
            = walkChildren maxDepth rest depth path) := by
  refine ⟨?_, ?_, ?_, ?_⟩
  · intro maxDepth depth path nm cs hle hmark
    have hd : ¬maxDepth < depth := Nat.not_lt.mpr hle
    rw [walkDir.eq_def]
    simp [hd, hmark]
  · intro root maxDepth p hp s hs
    obtain ⟨extra, hpe, hall⟩ :=
      walkDir_paths_aux (sizeOf root) root (Nat.le_refl _) maxDepth 0 [] p hp
    simp only [List.nil_append] at hpe
    exact hall s (hpe ▸ hs)
  · intro maxDepth depth path nm cs
    rw [walkDir.eq_def]
    split <;> rfl
  · intro maxDepth depth path nm r cs rest hig
    rw [walkChildren.eq_def]
    simp [hig]

/-- Witness for C8: a marker directory is recorded without recursion, and
a project nested under a non-ignored subdirectory is reported through
non-ignored segments only. -/
theorem findProjects_walk_invariants_witness :
    ((0 : Nat) ≤ 4 ∧ hasBeadsMarker [FsEntry.dir (".beads") true []] = true
      ∧ walkDir 4 (FsEntry.dir ("proj") true [FsEntry.dir (".beads") true []]) 0 []
          = [[]])
    ∧ ((["a"] : List String) ∈ findBeadsProjects
          (FsEntry.dir ("r") true
            [FsEntry.dir ("a") true [FsEntry.dir (".beads") true []]]) 4
      ∧ ∀ s ∈ (["a"] : List String), ignoredName s = false) :=
  ⟨⟨by decide, by decide,
      findProjects_walk_invariants.1 4 0 [] ("proj")
        [FsEntry.dir (".beads") true []] (by decide) (by decide)⟩,
    ⟨by decide,
      findProjects_walk_invariants.2.1
        (FsEntry.dir ("r") true
          [FsEntry.dir ("a") true [FsEntry.dir (".beads") true []]]) 4
        (["a"]) (by decide)⟩⟩

/-! ## `readPidFile` content parsing (C9)

`daemon.js` parses the PID file via
`Number.parseInt(text.trim(), 10)` and accepts the value only when
`Number.isFinite(pid_value) && pid_value > 0`. `parseIntJs` models
`Number.parseInt(·, 10)`: an optional sign, then the longest leading run
of decimal digits (empty run means `NaN`, modelled as `none`); `jsTrim`
models `String.prototype.trim` for ASCII whitespace. -/

def isJsSpace (c : Char) : Bool :=
  c == ' ' || c == '\t' || c == '\n' || c == '\r' || c == '\x0b' || c == '\x0c'

def jsTrim (s : String) : String :=
  String.mk (((s.data.dropWhile isJsSpace).reverse.dropWhile isJsSpace).reverse)

def parseDigitsJs (cs : List Char) : Option Nat :=
  let ds := cs.takeWhile (fun c => c.isDigit)
  if ds.isEmpty then none
  else some (ds.foldl (fun acc c => acc * 10 + (c.toNat - 48)) 0)

def parseIntJs (s : String) : Option Int :=
  match s.data with
  | '-' :: rest => (parseDigitsJs rest).map (fun n => -(n : Int))
  | '+' :: rest => (parseDigitsJs rest).map (fun n => (n : Int))
  | cs => (parseDigitsJs cs).map (fun n => (n : Int))

/-- `readPidFile` applied to the content of the PID file (`none` when the
file is missing or unreadable — the `catch` path). -/
def readPidContent (content : Option String) : Option Int :=
  match content with
  | none => none
  | some text =>
    match parseIntJs (jsTrim text) with
    | some v => if 0 < v then some v else none
    | none => none

/-- C9: `readPid` yields a pid only when the PID-file content parses to a
strictly positive integer — a file containing `0`, a negative number, or
unparsable text yields `none` exactly like a missing file — so every pid
ever returned satisfies `pid > 0`. -/
theorem readPidContent_positive :
    (∀ content pid, readPidContent content = some pid → 0 < pid)
    ∧ readPidContent (some ("0")) = none
    ∧ readPidContent (some ("-5")) = none
    ∧ readPidContent (some ("junk")) = none
    ∧ readPidContent none = none := by
  refine ⟨?_, by decide, by decide, by decide, rfl⟩
  intro content pid h
  cases content with
  | none => simp [readPidContent] at h
  | some text =>
    simp only [readPidContent] at h
    cases hp : parseIntJs (jsTrim text) with
    | none => rw [hp] at h; simp at h
    | some v =>
      rw [hp] at h
      by_cases hv : 0 < v
      · simp only [hv, if_true, Option.some.injEq] at h
        omega
      · simp [hv] at h

/-- Witness for C9: content `42\n` parses to pid 42, which is positive. -/
theorem readPidContent_positive_witness :
    readPidContent (some ("42\n")) = some 42 ∧ (0 : Int) < 42 :=
  ⟨by decide, readPidContent_positive.1 (some ("42\n")) 42 (by decide)⟩
